import Mathlib

/-!
Verification development for the tree-building and serialization core of the
helium XML library.  The Go sources under scrutiny are `dump.go` (escaping and
the `Dumper` serializer) and the tree-builder / node-model files.  Byte strings
are modelled as `List Nat` (each entry one byte), Unicode scalar values as
`Nat`, and Go's two-valued `(result, error)` returns as `Except`/`Option`.
A few helpers that the repository defines outside the shipped sources
(`Document.GetEntity`, `resolvePredefinedEntity`, `NewDocument`,
`CreateElement`/`SetAttribute`/`AddContent`) are modelled from the spec and
carry a doc comment saying so.
-/

/-- UTF-8 encoding of a Unicode scalar value, as Go's `utf8.EncodeRune`
produces it for valid scalars.  Used to feed single scalar values to the
byte-level escaping functions. -/
def utf8Encode (r : Nat) : List Nat :=
  if r < 0x80 then [r]
  else if r < 0x800 then [0xC0 + r / 0x40, 0x80 + r % 0x40]
  else if r < 0x10000 then
    [0xE0 + r / 0x1000, 0x80 + (r / 0x40) % 0x40, 0x80 + r % 0x40]
  else
    [0xF0 + r / 0x40000, 0x80 + (r / 0x1000) % 0x40, 0x80 + (r / 0x40) % 0x40,
      0x80 + r % 0x40]

/-- Go's `utf8.DecodeRune` on a byte slice: returns the decoded rune and its
width.  Invalid input decodes to `(0xFFFD, 1)` (`RuneError` with width 1), the
empty slice to `(0xFFFD, 0)`.  The acceptance windows for the second byte
(`0xE0 : A0..BF`, `0xED : 80..9F`, `0xF0 : 90..BF`, `0xF4 : 80..8F`) mirror
Go's `acceptRanges` table. -/
def utf8DecodeRune (s : List Nat) : Nat × Nat :=
  match s with
  | [] => (0xFFFD, 0)
  | b0 :: rest =>
    if b0 < 0x80 then (b0, 1)
    else if b0 < 0xC2 then (0xFFFD, 1)
    else if b0 < 0xE0 then
      match rest with
      | [] => (0xFFFD, 1)
      | b1 :: _ =>
        if 0x80 ≤ b1 ∧ b1 < 0xC0 then ((b0 % 0x20) * 0x40 + b1 % 0x40, 2)
        else (0xFFFD, 1)
    else if b0 < 0xF0 then
      match rest with
      | b1 :: b2 :: _ =>
        if (if b0 = 0xE0 then 0xA0 else 0x80) ≤ b1 ∧
            b1 ≤ (if b0 = 0xED then 0x9F else 0xBF) then
          if 0x80 ≤ b2 ∧ b2 < 0xC0 then
            ((b0 % 0x10) * 0x1000 + (b1 % 0x40) * 0x40 + b2 % 0x40, 3)
          else (0xFFFD, 1)
        else (0xFFFD, 1)
      | _ => (0xFFFD, 1)
    else if b0 < 0xF5 then
      match rest with
      | b1 :: b2 :: b3 :: _ =>
        if (if b0 = 0xF0 then 0x90 else 0x80) ≤ b1 ∧
            b1 ≤ (if b0 = 0xF4 then 0x8F else 0xBF) then
          if 0x80 ≤ b2 ∧ b2 < 0xC0 then
            if 0x80 ≤ b3 ∧ b3 < 0xC0 then
              ((b0 % 0x8) * 0x40000 + (b1 % 0x40) * 0x1000 +
                (b2 % 0x40) * 0x40 + b3 % 0x40, 4)
            else (0xFFFD, 1)
          else (0xFFFD, 1)
        else (0xFFFD, 1)
      | _ => (0xFFFD, 1)
    else (0xFFFD, 1)

/-- UTF-8 bytes of a Lean string; Lean chars are Unicode scalar values, so
this matches the bytes of the corresponding Go string literal. -/
def strBytes (s : String) : List Nat :=
  s.data.flatMap (fun c => utf8Encode c.toNat)

/-- dump.go `isInCharacterRange`: the XML `Char` production as the source
writes it (note the source's `0xDF77` upper bound). -/
def isInCharacterRange (r : Nat) : Prop :=
  r = 0x09 ∨ r = 0x0A ∨ r = 0x0D ∨
  (0x20 ≤ r ∧ r ≤ 0xDF77) ∨
  (0xE000 ≤ r ∧ r ≤ 0xFFFD) ∨
  (0x10000 ≤ r ∧ r ≤ 0x10FFFF)

instance (r : Nat) : Decidable (isInCharacterRange r) := by
  unfold isInCharacterRange; infer_instance

/-- dump.go escape constants. -/
def esc_quot : List Nat := strBytes "&#34;"

def esc_apos : List Nat := strBytes "&#39;"

def esc_amp : List Nat := strBytes "&amp;"

def esc_lt : List Nat := strBytes "&lt;"

def esc_gt : List Nat := strBytes "&gt;"

def esc_tab : List Nat := strBytes "&#9;"

def esc_nl : List Nat := strBytes "&#10;"

def esc_cr : List Nat := strBytes "&#13;"

/-- dump.go `esc_fffd`: the UTF-8 bytes of the replacement character. -/
def esc_fffd : List Nat := strBytes "�"

/-- Uppercase hexadecimal digit, as Go's `%X` verb prints it. -/
def hexDigit (n : Nat) : Char :=
  Char.ofNat (if n < 10 then 48 + n else 55 + n)

/-- Fuel-driven most-significant-first hex digits (fuel `n + 1` always
suffices since the argument shrinks by a factor of 16 each step). -/
def toHexAux : Nat → Nat → List Char
  | 0, _ => []
  | fuel + 1, n =>
    if n < 16 then [hexDigit n]
    else toHexAux fuel (n / 16) ++ [hexDigit (n % 16)]

/-- Bytes of Go's `fmt.Sprintf("&#x%X;", r)`. -/
def fmtHexRef (r : Nat) : List Nat :=
  strBytes "&#x" ++ (toHexAux (r + 1) r).map Char.toNat ++ strBytes ";"

/-- One iteration of the `escapeAttrValue` switch in dump.go, as a function of
the decoded rune `r`, its decode width `w`, and the original bytes `orig` of
the rune.  The source accumulates unescaped spans and flushes them around each
escape; emitting per-rune (escape bytes, or the original bytes) produces the
identical output stream. -/
def escAttrRune (r w : Nat) (orig : List Nat) : List Nat :=
  if r = 0x22 then esc_quot
  else if r = 0x27 then esc_apos
  else if r = 0x26 then esc_amp
  else if r = 0x3C then esc_lt
  else if r = 0x3E then esc_gt
  else if r = 0x0A then esc_nl
  else if r = 0x0D then esc_cr
  else if r = 0x09 then esc_tab
  else if ¬(0x20 ≤ r ∧ r < 0x80) ∧ r < 0xE0 then fmtHexRef r
  else if ¬isInCharacterRange r ∨ (r = 0xFFFD ∧ w = 1) then esc_fffd
  else orig

/-- One iteration of the `escapeText` switch in dump.go.  Unlike the
attribute variant there is no tab case, and a newline is escaped only when
`escapeNewline` is set. -/
def escTextRune (escapeNewline : Bool) (r w : Nat) (orig : List Nat) :
    List Nat :=
  if r = 0x22 then esc_quot
  else if r = 0x27 then esc_apos
  else if r = 0x26 then esc_amp
  else if r = 0x3C then esc_lt
  else if r = 0x3E then esc_gt
  else if r = 0x0A then (if escapeNewline then esc_nl else orig)
  else if r = 0x0D then esc_cr
  else if ¬(r = 0x09 ∨ (0x20 ≤ r ∧ r < 0x80)) ∧ r < 0xE0 then fmtHexRef r
  else if ¬isInCharacterRange r ∨ (r = 0xFFFD ∧ w = 1) then esc_fffd
  else orig

/-- Decode-and-escape loop of `escapeAttrValue`; the fuel argument is the
number of remaining bytes, which bounds the number of iterations because the
decode width is at least 1 on nonempty input. -/
def escAttrLoop : Nat → List Nat → List Nat
  | _, [] => []
  | 0, _ :: _ => []
  | fuel + 1, b :: rest =>
    let d := utf8DecodeRune (b :: rest)
    escAttrRune d.1 d.2 ((b :: rest).take d.2) ++
      escAttrLoop fuel ((b :: rest).drop d.2)

/-- dump.go `escapeAttrValue` as a pure byte transformer. -/
def escapeAttrValue (s : List Nat) : List Nat :=
  escAttrLoop s.length s

/-- Decode-and-escape loop of `escapeText`. -/
def escTextLoop (escapeNewline : Bool) : Nat → List Nat → List Nat
  | _, [] => []
  | 0, _ :: _ => []
  | fuel + 1, b :: rest =>
    let d := utf8DecodeRune (b :: rest)
    escTextRune escapeNewline d.1 d.2 ((b :: rest).take d.2) ++
      escTextLoop escapeNewline fuel ((b :: rest).drop d.2)

/-- dump.go `escapeText` as a pure byte transformer. -/
def escapeText (s : List Nat) (escapeNewline : Bool) : List Nat :=
  escTextLoop escapeNewline s.length s

/-- Identity of an element as the tree builder's `EndElement` compares it:
local name, namespace prefix and namespace URI (`pfx`/`uri` are empty when no
namespace is attached, which is what `CreateElement(localname)` produces). -/
structure ElemIdent where
  localName : String
  pfx : String
  uri : String
deriving DecidableEq

/-- The node variants of the document tree that the claims exercise.  Every
Go node embeds the generic `node` struct and hence carries a child list; the
serializer ignores the children of text/comment/entity-reference nodes, so
they are kept here to state that fact.  Element attributes are kept as
(name, value) pairs in insertion order, matching the `properties` chain. -/
inductive HNode where
  | element (ident : ElemIdent) (attrs : List (String × String))
      (children : List HNode)
  | text (content : List Nat) (children : List HNode)
  | comment (content : List Nat) (children : List HNode)
  | entityRef (name : String) (children : List HNode)

/-- part_001 `DocumentStandaloneType` values: 1 explicit yes, 0 explicit no,
-1 no XML declaration, -2 implicit no, -99 invalid. -/
abbrev DocumentStandaloneType := Int

/-- part_001 `EntityType`. -/
inductive EntityType where
  | internalGeneral
  | externalGeneralParsed
  | externalGeneralUnparsed
  | internalParameter
  | externalParameter
  | internalPredefined
deriving DecidableEq

/-- part_001 `Entity` (tree-linkage fields dropped; only the scalar fields
the claims observe are kept). -/
structure Entity where
  name : String
  entityType : EntityType
  externalID : String
  systemID : String
  content : String
  orig : String
  uri : String
  owner : Bool
  checked : Int
deriving DecidableEq

/-- part_001 `DTD`: the name-keyed entity tables, as association lists in
declaration order (the Go maps are keyed the same way). -/
structure DTD where
  entities : List (String × Entity)
  pentities : List (String × Entity)
  externalID : String
  systemID : String
deriving DecidableEq

/-- part_001 `Document`: version, encoding, standalone classification, the
two DTD subsets, and the top-level children. -/
structure Document where
  version : String
  encoding : String
  standalone : DocumentStandaloneType
  intSubset : Option DTD
  extSubset : Option DTD
  children : List HNode

/-- Modelled from the spec: `newEntity` (entity.go, not under src/) as called
by the predefined-entity table in part_001, with the fifth argument the
resolved content and the sixth the original pre-substitution text. -/
def newEntity (name : String) (etype : EntityType)
    (externalID systemID content orig : String) : Entity :=
  { name := name, entityType := etype, externalID := externalID,
    systemID := systemID, content := content, orig := orig,
    uri := "", owner := false, checked := 0 }

/-- part_001 `EntityLT`. -/
def EntityLT : Entity := newEntity "lt" .internalPredefined "" "" "<" "&lt;"

/-- part_001 `EntityGT`. -/
def EntityGT : Entity := newEntity "gt" .internalPredefined "" "" ">" "&gt;"

/-- part_001 `EntityAmpersand`. -/
def EntityAmpersand : Entity :=
  newEntity "amp" .internalPredefined "" "" "&" "&amp;"

/-- part_001 `EntityApostrophe`. -/
def EntityApostrophe : Entity :=
  newEntity "apos" .internalPredefined "" "" "'" "&apos;"

/-- part_001 `EntityQuote`. -/
def EntityQuote : Entity :=
  newEntity "quot" .internalPredefined "" "" "\"" "&quot;"

/-- Modelled from the spec: `resolvePredefinedEntity` (entity.go, not under
src/) — the fixed predefined-entity table {lt, gt, amp, apos, quot}. -/
def resolvePredefinedEntity : String → Option Entity
  | "lt" => some EntityLT
  | "gt" => some EntityGT
  | "amp" => some EntityAmpersand
  | "apos" => some EntityApostrophe
  | "quot" => some EntityQuote
  | _ => none

/-- dump.go `dumpDocContent`: the XML prologue. -/
def dumpDocContent (doc : Document) : List Nat :=
  strBytes ("<?xml version=\"" ++
      (if doc.version = "" then "1.0" else doc.version) ++ "\"") ++
  (if doc.encoding ≠ "" then
      strBytes (" encoding=\"" ++ doc.encoding ++ "\"")
    else []) ++
  (if doc.standalone = 0 then strBytes " standalone=\"no\""
    else if doc.standalone = 1 then strBytes " standalone=\"yes\""
    else []) ++
  strBytes "?>\n"

/-- part_001 `XMLTextNoEnc`. -/
def XMLTextNoEnc : String := "textnoenc"

mutual

/-- Number of nodes in a tree; an upper bound on nesting depth, used as the
recursion budget of the serializer. -/
def HNode.size : HNode → Nat
  | .element _ _ cs => 1 + HNode.sizeList cs
  | .text _ cs => 1 + HNode.sizeList cs
  | .comment _ cs => 1 + HNode.sizeList cs
  | .entityRef _ cs => 1 + HNode.sizeList cs

/-- Total size of a list of trees. -/
def HNode.sizeList : List HNode → Nat
  | [] => 0
  | c :: cs => HNode.size c + HNode.sizeList cs

end

/-- dump.go `Dumper.DumpNode`, with an explicit recursion budget for the
element case (the budget only limits nesting depth; `DumpNode` below supplies
one that always suffices).  `none` models a run-time panic: the text branch
hits the unimplemented `XMLTextNoEnc` case.  Text, comment and
entity-reference nodes never recurse into their children. -/
def dumpNodeF : Nat → HNode → Option (List Nat)
  | _, .comment c _ => some (strBytes "<!--" ++ c ++ strBytes "-->\n")
  | _, .entityRef n _ => some (strBytes ("&" ++ n ++ ";"))
  | _, .text c _ =>
    if c = strBytes XMLTextNoEnc then none
    else some (escapeText c false)
  | fuel, .element ident attrs children =>
    let name :=
      if ident.pfx ≠ "" then ident.pfx ++ ":" ++ ident.localName
      else ident.localName
    let openTag :=
      strBytes ("<" ++ name) ++
        attrs.foldr
          (fun a acc =>
            strBytes (" " ++ a.1 ++ "=\"") ++
              escapeAttrValue (strBytes a.2) ++ strBytes "\"" ++ acc)
          []
    match children with
    | [] => some (openTag ++ strBytes "/>")
    | c :: cs =>
      match fuel with
      | 0 => none
      | fuel + 1 =>
        ((c :: cs).mapM (dumpNodeF fuel)).map
          (fun bs => openTag ++ strBytes ">" ++ bs.flatten ++
            strBytes ("</" ++ name ++ ">"))

/-- dump.go `Dumper.DumpNode` on non-document nodes. -/
def DumpNode (n : HNode) : Option (List Nat) :=
  dumpNodeF n.size n

/-- dump.go `Dumper.DumpDoc`: prologue, then every top-level child, then a
final newline. -/
def DumpDoc (doc : Document) : Option (List Nat) :=
  (doc.children.mapM DumpNode).map
    (fun bs => dumpDocContent doc ++ bs.flatten ++ strBytes "\n")

/-- Modelled from the spec: `Document.GetEntity` (document.go, not under
src/).  The entity tables are layered: the internal subset is consulted
first; the external subset only when the document is not marked standalone
(`standalone ≠ 1`).  This gating is what makes the tree builder's
clear-and-restore dance on the standalone flag observable. -/
def Document.GetEntity (d : Document) (name : String) :
    Option Entity × Bool :=
  let intHit :=
    d.intSubset.bind (fun s => (s.entities.find? (fun p => p.1 = name)).map
      Prod.snd)
  match intHit with
  | some e => (some e, true)
  | none =>
    if d.standalone ≠ 1 then
      match d.extSubset.bind (fun s =>
          (s.entities.find? (fun p => p.1 = name)).map Prod.snd) with
      | some e => (some e, true)
      | none => (none, false)
    else (none, false)

/-- The slice of `parserCtx` state the tree builder reads and writes:
document version/encoding/standalone supplied at document start, the
DTD-subset marker (`0` none, `1` internal, `2` external), and the document
reference the builder hands back. -/
structure ParserCtx where
  version : String
  encoding : String
  standalone : DocumentStandaloneType
  inSubset : Nat
  doc : Option Document

/-- An element that has been started but not yet closed: its identity, the
attributes copied onto it, and the children accumulated so far. -/
structure OpenElem where
  ident : ElemIdent
  attrs : List (String × String)
  children : List HNode

/-- The tree builder's cursor (`t.node`): nil, the document node (where it
lands after the root element closes), or a non-empty stack of open elements,
innermost first.  Each open element's parent is the next stack entry (or the
document for the last entry). -/
inductive Cursor where
  | none
  | doc
  | elems (stack : List OpenElem)

/-- part_000 `TreeBuilder`: the current document and the cursor. -/
structure TreeBuilder where
  doc : Option Document
  node : Cursor

/-- Modelled from the spec: `NewDocument` (document.go, not under src/)
allocates an empty document with the supplied version, encoding and
standalone classification. -/
def NewDocument (version encoding : String)
    (standalone : DocumentStandaloneType) : Document :=
  { version := version, encoding := encoding, standalone := standalone,
    intSubset := none, extSubset := none, children := [] }

/-- part_000 `TreeBuilder.StartDocument`: allocate a fresh document from the
context's version/encoding/standalone.  Mirrors the source exactly: the
cursor field is not touched. -/
def TreeBuilder.StartDocument (t : TreeBuilder) (ctx : ParserCtx) :
    TreeBuilder :=
  { t with doc := some (NewDocument ctx.version ctx.encoding ctx.standalone) }

/-- Modelled from the spec: `Element.SetAttribute` folded over an event's
attribute list, as `StartElement` does.  A duplicate name is rejected
(first value wins); `StartElement` discards the per-call error. -/
def applyAttrs (attrs : List (String × String)) :
    List (String × String) :=
  attrs.foldl
    (fun acc a => if acc.any (fun p => p.1 = a.1) then acc else acc ++ [a])
    []

/-- part_000 `TreeBuilder.StartElement`: create an element carrying only the
event's local name (`CreateElement(localname)` attaches no namespace, so the
stored prefix and URI are empty), copy the attributes onto it discarding any
`SetAttribute` error, attach it under the cursor (or the document when the
cursor is nil), and make it the new cursor.  The outer `Option` is `none`
when `t.doc` is nil, where the Go code dereferences a nil document and
panics; the inner `Except` is the handler's error return, which on this path
is always `ok`. -/
def TreeBuilder.StartElement (t : TreeBuilder) (localname _pfx _uri : String)
    (attrs : List (String × String)) :
    Option (Except String TreeBuilder) :=
  match t.doc with
  | none => none
  | some _ =>
    let oe : OpenElem :=
      { ident := { localName := localname, pfx := "", uri := "" },
        attrs := applyAttrs attrs, children := [] }
    match t.node with
    | .none => some (.ok { t with node := .elems [oe] })
    | .doc => some (.ok { t with node := .elems [oe] })
    | .elems stack => some (.ok { t with node := .elems (oe :: stack) })

/-- part_000 `TreeBuilder.EndElement`: if the cursor is an element whose
(local name, prefix, uri) triple equals the event's, move the cursor to its
parent (the completed element becomes a child of that parent); otherwise ---
including when the cursor is nil or the document --- leave everything
unchanged.  The handler always returns a nil error. -/
def TreeBuilder.EndElement (t : TreeBuilder) (localname pfx uri : String) :
    TreeBuilder :=
  match t.node with
  | .elems (oe :: rest) =>
    if oe.ident.localName = localname ∧ oe.ident.pfx = pfx ∧
        oe.ident.uri = uri then
      let e := HNode.element oe.ident oe.attrs oe.children
      match rest with
      | [] =>
        { t with
          node := .doc
          doc := t.doc.map (fun d => { d with children := d.children ++ [e] }) }
      | oe2 :: rest2 =>
        let stk := { oe2 with children := oe2.children ++ [e] } :: rest2
        { t with node := .elems stk }
    else t
  | _ => t

/-- Modelled from the spec: `AddContent` (node.go, not under src/) appends
bytes to a node's content --- merging into a trailing text child when one
exists, else appending a fresh text node --- preserving document order and
byte content. -/
def addContentList (children : List HNode) (data : List Nat) : List HNode :=
  match children.getLast? with
  | some (.text c tch) => children.dropLast ++ [.text (c ++ data) tch]
  | _ => children ++ [.text data []]

/-- part_000 `TreeBuilder.Characters`: fails when the cursor is nil ("text
content placed in wrong location"); otherwise appends the bytes to the
cursor's content (the cursor is the document node after the root element has
closed, in which case the text lands under the document). -/
def TreeBuilder.Characters (t : TreeBuilder) (data : List Nat) :
    Except String TreeBuilder :=
  match t.node with
  | .none => .error "text content placed in wrong location"
  | .doc =>
    let upd := fun (d : Document) =>
      { d with children := addContentList d.children data }
    .ok { t with doc := t.doc.map upd }
  | .elems [] => .ok t
  | .elems (oe :: rest) =>
    let stk := { oe with children := addContentList oe.children data } :: rest
    .ok { t with node := .elems stk }

/-- The subtree formed by an open-element stack once every entry is wrapped
inside its parent: the first argument is the innermost element realized as a
node-so-far, the list walks outward. -/
def collapseStack : OpenElem → List OpenElem → HNode
  | oe, [] => .element oe.ident oe.attrs oe.children
  | oe, oe2 :: rest =>
    collapseStack
      { oe2 with children :=
          oe2.children ++ [HNode.element oe.ident oe.attrs oe.children] }
      rest

/-- The document tree as it stands in Go's mutable representation: elements
are physically attached by `StartElement`, so an open stack already lives
under the document. -/
def currentTree (d : Document) (cur : Cursor) : Document :=
  match cur with
  | .elems (oe :: rest) =>
    { d with children := d.children ++ [collapseStack oe rest] }
  | _ => d

/-- part_000 `TreeBuilder.EndDocument`: hand the completed document to the
context (`ctx.doc = t.doc`) and clear the builder's document reference
(`t.doc = nil`).  Mirrors the source exactly: the cursor field (`t.node`) is
not touched.  Returns the new builder state and the handed-back document. -/
def TreeBuilder.EndDocument (t : TreeBuilder) :
    TreeBuilder × Option Document :=
  ({ t with doc := none }, t.doc.map (fun d => currentTree d t.node))

/-- part_000 `TreeBuilder.GetEntity`.  Outside DTD-subset processing the
predefined table is consulted first.  Otherwise the document's tables are
used; for a standalone document (`standalone = 1`) an external-subset lookup
(`inSubset = 2`) temporarily clears the flag, while an ordinary lookup
retries with the flag cleared on a miss and only restores the flag when the
retry hits.  `none` models the nil-document dereference (Go panics there);
the error string is the source's, typo included. -/
def TreeBuilder.GetEntity (ctx : ParserCtx) (name : String) :
    Option (Except String (Option Entity) × ParserCtx) :=
  let pre : Option Entity :=
    if ctx.inSubset = 0 then resolvePredefinedEntity name else none
  match pre with
  | some ret => some (.ok (some ret), ctx)
  | none =>
    match ctx.doc with
    | none => none
    | some d =>
      if d.standalone ≠ 1 then
        some (.ok (d.GetEntity name).1, ctx)
      else if ctx.inSubset = 2 then
        let d0 := { d with standalone := 0 }
        some (.ok (d0.GetEntity name).1,
          { ctx with doc := some { d0 with standalone := 1 } })
      else
        match d.GetEntity name with
        | (ret, true) => some (.ok ret, ctx)
        | (_, false) =>
          let d0 := { d with standalone := 0 }
          match d0.GetEntity name with
          | (ret, true) =>
            some (.ok ret, { ctx with doc := some { d0 with standalone := 1 } })
          | (_, false) =>
            some (.error ("Entity(" ++ name ++
                ") document marked standalone but requires eternal subset"),
              { ctx with doc := some d0 })


/-- The cursor value after a matching element-end pops open element realized
as `e`: the next stack entry with `e` appended to its children, or the
document when the stack empties. -/
def parentCursor (e : HNode) (rest : List OpenElem) : Cursor :=
  match rest with
  | [] => Cursor.doc
  | oe2 :: rest2 =>
    Cursor.elems ({ oe2 with children := oe2.children ++ [e] } :: rest2)

/-- part_001 `StandaloneExplicitYes`. -/
def StandaloneExplicitYes : DocumentStandaloneType := 1

/-- part_001 `StandaloneExplicitNo`. -/
def StandaloneExplicitNo : DocumentStandaloneType := 0

/-- part_001 `StandaloneNoXMLDecl`. -/
def StandaloneNoXMLDecl : DocumentStandaloneType := -1

/-- part_001 `StandaloneImplicitNo`. -/
def StandaloneImplicitNo : DocumentStandaloneType := -2

/-- The freshly constructed tree builder: no document, nil cursor. -/
def initialTreeBuilder : TreeBuilder := { doc := none, node := Cursor.none }

/-- Context for the end-to-end run: version "1.0", no encoding, no
standalone declaration. -/
def c1Context : ParserCtx :=
  { version := "1.0", encoding := "", standalone := StandaloneNoXMLDecl,
    inSubset := 0, doc := none }

/-- The end-to-end event sequence of the spec: document-start,
element-start("root"), characters("hi"), element-end("root"), document-end,
followed by `DumpDoc` on the handed-back document. -/
def c1Run : Option (List Nat) :=
  let t1 := initialTreeBuilder.StartDocument c1Context
  match t1.StartElement "root" "" "" [] with
  | some (Except.ok t2) =>
    match t2.Characters (strBytes "hi") with
    | Except.ok t3 =>
      let t4 := t3.EndElement "root" "" ""
      (t4.EndDocument).2.bind DumpDoc
    | _ => none
  | _ => none

/-- An empty DTD table. -/
def dtdEmpty : DTD :=
  { entities := [], pentities := [], externalID := "", systemID := "" }

/-- A general entity declared (only) in the external subset, for the
standalone-retry fixtures. -/
def entFoo : Entity := newEntity "foo" .internalGeneral "" "" "F" "&foo;"

/-- External subset declaring `foo`. -/
def dtdWithFoo : DTD := { dtdEmpty with entities := [("foo", entFoo)] }

/-- A standalone document whose internal subset is empty and whose external
subset declares `foo`. -/
def docStandalone : Document :=
  { version := "1.0", encoding := "", standalone := 1,
    intSubset := some dtdEmpty, extSubset := some dtdWithFoo, children := [] }

/-- Parser context attached to `docStandalone`, outside DTD processing. -/
def ctxStandalone : ParserCtx :=
  { version := "1.0", encoding := "", standalone := 1, inSubset := 0,
    doc := some docStandalone }

/-- Parser context with no document attached, outside DTD processing. -/
def ctxNoDoc : ParserCtx :=
  { version := "", encoding := "", standalone := 0, inSubset := 0,
    doc := none }

/-- Builder with one open element `a` directly under the document. -/
def tC4 : TreeBuilder :=
  { doc := some (NewDocument "1.0" "" StandaloneNoXMLDecl),
    node := Cursor.elems
      [{ ident := { localName := "a", pfx := "", uri := "" },
         attrs := [], children := [] }] }

/-- Builder whose cursor rests on the document node (as after the root
element closed) with a document still attached. -/
def tC6 : TreeBuilder :=
  { doc := some (NewDocument "1.0" "" StandaloneNoXMLDecl),
    node := Cursor.doc }

/-- Builder with a fresh document and nil cursor. -/
def tC9 : TreeBuilder :=
  { doc := some (NewDocument "1.0" "" StandaloneNoXMLDecl),
    node := Cursor.none }


/-- The set of scalar values the spec's escaping table (§4.5) allows:
{0x09, 0x0A, 0x0D, 0x20-0xDF77, 0xE000-0xFFFD, 0x10000-0x10FFFF}.  Written
from the spec's words (refinement side). -/
def specAllowed (r : Nat) : Prop :=
  r = 0x09 ∨ r = 0x0A ∨ r = 0x0D ∨
  (0x20 ≤ r ∧ r ≤ 0xDF77) ∨
  (0xE000 ≤ r ∧ r ≤ 0xFFFD) ∨
  (0x10000 ≤ r ∧ r ≤ 0x10FFFF)

instance (r : Nat) : Decidable (specAllowed r) := by
  unfold specAllowed; infer_instance

/-- Attribute-value column of the spec's escaping table, exactly as the
claim states it: explicit rows for the eight special characters, a numeric
character reference for any value < 0x20 or in [0x80,0xDF), the literal
replacement character for values outside `specAllowed`, and pass-through for
everything else.  Written from the spec's words (refinement side). -/
def specTableAttr (r : Nat) : List Nat :=
  if r = 0x22 then strBytes "&#34;"
  else if r = 0x27 then strBytes "&#39;"
  else if r = 0x26 then strBytes "&amp;"
  else if r = 0x3C then strBytes "&lt;"
  else if r = 0x3E then strBytes "&gt;"
  else if r = 0x09 then strBytes "&#9;"
  else if r = 0x0A then strBytes "&#10;"
  else if r = 0x0D then strBytes "&#13;"
  else if r < 0x20 ∨ (0x80 ≤ r ∧ r < 0xDF) then fmtHexRef r
  else if ¬specAllowed r then strBytes "�"
  else utf8Encode r

/-- Amended attribute-value column: the numeric-escape band is [0x80,0xE0)
(inclusive of 0xDF), matching the source's `r < 0xE0` test.  This is the
only change relative to `specTableAttr`. -/
def specTableAttrAmended (r : Nat) : List Nat :=
  if r = 0x22 then strBytes "&#34;"
  else if r = 0x27 then strBytes "&#39;"
  else if r = 0x26 then strBytes "&amp;"
  else if r = 0x3C then strBytes "&lt;"
  else if r = 0x3E then strBytes "&gt;"
  else if r = 0x09 then strBytes "&#9;"
  else if r = 0x0A then strBytes "&#10;"
  else if r = 0x0D then strBytes "&#13;"
  else if r < 0x20 ∨ (0x80 ≤ r ∧ r < 0xE0) then fmtHexRef r
  else if ¬specAllowed r then strBytes "�"
  else utf8Encode r

/-- Amended text column (newline-escaping off): a tab and a newline pass
through literally, the other rows are as in the attribute column, with the
numeric-escape band amended to [0x80,0xE0) as in `specTableAttrAmended`. -/
def specTableTextAmended (r : Nat) : List Nat :=
  if r = 0x09 then utf8Encode r
  else if r = 0x0A then utf8Encode r
  else if r = 0x22 then strBytes "&#34;"
  else if r = 0x27 then strBytes "&#39;"
  else if r = 0x26 then strBytes "&amp;"
  else if r = 0x3C then strBytes "&lt;"
  else if r = 0x3E then strBytes "&gt;"
  else if r = 0x0D then strBytes "&#13;"
  else if r < 0x20 ∨ (0x80 ≤ r ∧ r < 0xE0) then fmtHexRef r
  else if ¬specAllowed r then strBytes "�"
  else utf8Encode r

/-- Length of the UTF-8 encoding per scalar range. -/
theorem utf8Encode_length (r : Nat) :
    (utf8Encode r).length =
      if r < 0x80 then 1 else if r < 0x800 then 2
      else if r < 0x10000 then 3 else 4 := by
  unfold utf8Encode
  split_ifs <;> rfl

/-- The UTF-8 encoding of a scalar value is never empty. -/
theorem utf8Encode_ne_nil (r : Nat) : utf8Encode r ≠ [] := by
  unfold utf8Encode
  split_ifs <;> simp

/-- Decoding inverts encoding on Unicode scalar values, and the reported
width is the full encoding length. -/
theorem utf8DecodeRune_utf8Encode (r : Nat) (h1 : r ≤ 0x10FFFF)
    (h2 : ¬(0xD800 ≤ r ∧ r ≤ 0xDFFF)) :
    utf8DecodeRune (utf8Encode r) = (r, (utf8Encode r).length) := by
  rcases Nat.lt_or_ge r 0x80 with c1 | c1
  · have he : utf8Encode r = [r] := by unfold utf8Encode; rw [if_pos c1]
    rw [he]
    simp only [utf8DecodeRune]
    rw [if_pos c1]
    rfl
  · rcases Nat.lt_or_ge r 0x800 with c2 | c2
    · have he : utf8Encode r = [0xC0 + r / 0x40, 0x80 + r % 0x40] := by
        unfold utf8Encode
        rw [if_neg (by omega), if_pos c2]
      rw [he]
      simp only [utf8DecodeRune]
      rw [if_neg (by omega), if_neg (by omega), if_pos (by omega),
        if_pos (by omega)]
      simp only [List.length_cons, List.length_nil, Prod.mk.injEq, and_true]
      omega
    · rcases Nat.lt_or_ge r 0x10000 with c3 | c3
      · have he : utf8Encode r =
            [0xE0 + r / 0x1000, 0x80 + (r / 0x40) % 0x40, 0x80 + r % 0x40] := by
          unfold utf8Encode
          rw [if_neg (by omega), if_neg (by omega), if_pos c3]
        rw [he]
        simp only [utf8DecodeRune]
        rw [if_neg (by omega), if_neg (by omega), if_neg (by omega),
          if_pos (by omega)]
        rw [if_pos (by constructor <;> (split_ifs <;> omega)), if_pos (by omega)]
        simp only [List.length_cons, List.length_nil, Prod.mk.injEq, and_true]
        omega
      · have he : utf8Encode r =
            [0xF0 + r / 0x40000, 0x80 + (r / 0x1000) % 0x40,
              0x80 + (r / 0x40) % 0x40, 0x80 + r % 0x40] := by
          unfold utf8Encode
          rw [if_neg (by omega), if_neg (by omega), if_neg (by omega)]
        rw [he]
        simp only [utf8DecodeRune]
        rw [if_neg (by omega), if_neg (by omega), if_neg (by omega),
          if_neg (by omega), if_pos (by omega)]
        rw [if_pos (by constructor <;> (split_ifs <;> omega)),
          if_pos (by omega), if_pos (by omega)]
        simp only [List.length_cons, List.length_nil, Prod.mk.injEq, and_true]
        omega

/-- Unfolding equation of the attribute-escaping loop on nonempty input. -/
theorem escAttrLoop_cons (fuel b : Nat) (rest : List Nat) :
    escAttrLoop (fuel + 1) (b :: rest) =
      escAttrRune (utf8DecodeRune (b :: rest)).1 (utf8DecodeRune (b :: rest)).2
          ((b :: rest).take (utf8DecodeRune (b :: rest)).2) ++
        escAttrLoop fuel ((b :: rest).drop (utf8DecodeRune (b :: rest)).2) :=
  rfl

/-- Unfolding equation of the text-escaping loop on nonempty input. -/
theorem escTextLoop_cons (en : Bool) (fuel b : Nat) (rest : List Nat) :
    escTextLoop en (fuel + 1) (b :: rest) =
      escTextRune en (utf8DecodeRune (b :: rest)).1
          (utf8DecodeRune (b :: rest)).2
          ((b :: rest).take (utf8DecodeRune (b :: rest)).2) ++
        escTextLoop en fuel ((b :: rest).drop (utf8DecodeRune (b :: rest)).2) :=
  rfl

/-- On the encoding of a single scalar value, `escapeAttrValue` performs one
switch iteration. -/
theorem escapeAttrValue_single (r : Nat) (h1 : r ≤ 0x10FFFF)
    (h2 : ¬(0xD800 ≤ r ∧ r ≤ 0xDFFF)) :
    escapeAttrValue (utf8Encode r) =
      escAttrRune r (utf8Encode r).length (utf8Encode r) := by
  have hd := utf8DecodeRune_utf8Encode r h1 h2
  obtain ⟨b, rest, he⟩ := List.exists_cons_of_ne_nil (utf8Encode_ne_nil r)
  rw [escapeAttrValue, he]
  rw [he] at hd
  rw [List.length_cons, escAttrLoop_cons, hd]
  simp only [← List.length_cons b rest, List.take_length, List.drop_length]
  have hnil : escAttrLoop rest.length [] = [] := by
    cases rest.length <;> rfl
  rw [hnil, List.append_nil]

/-- On the encoding of a single scalar value, `escapeText` performs one
switch iteration. -/
theorem escapeText_single (en : Bool) (r : Nat) (h1 : r ≤ 0x10FFFF)
    (h2 : ¬(0xD800 ≤ r ∧ r ≤ 0xDFFF)) :
    escapeText (utf8Encode r) en =
      escTextRune en r (utf8Encode r).length (utf8Encode r) := by
  have hd := utf8DecodeRune_utf8Encode r h1 h2
  obtain ⟨b, rest, he⟩ := List.exists_cons_of_ne_nil (utf8Encode_ne_nil r)
  rw [escapeText, he]
  rw [he] at hd
  rw [List.length_cons, escTextLoop_cons, hd]
  simp only [← List.length_cons b rest, List.take_length, List.drop_length]
  have hnil : escTextLoop en rest.length [] = [] := by
    cases rest.length <;> rfl
  rw [hnil, List.append_nil]

/-- The attribute-escaping switch agrees with the amended spec table on
every Unicode scalar value. -/
theorem escAttrRune_matches_table (r : Nat) (h1 : r ≤ 0x10FFFF)
    (h2 : ¬(0xD800 ≤ r ∧ r ≤ 0xDFFF)) :
    escAttrRune r (utf8Encode r).length (utf8Encode r) =
      specTableAttrAmended r := by
  by_cases hq : r = 0x22
  · subst hq; rfl
  by_cases ha : r = 0x27
  · subst ha; rfl
  by_cases hm : r = 0x26
  · subst hm; rfl
  by_cases hl : r = 0x3C
  · subst hl; rfl
  by_cases hg : r = 0x3E
  · subst hg; rfl
  by_cases hn : r = 0x0A
  · subst hn; rfl
  by_cases hc : r = 0x0D
  · subst hc; rfl
  by_cases ht : r = 0x09
  · subst ht; rfl
  have hw : ¬(r = 0xFFFD ∧ (utf8Encode r).length = 1) := by
    rintro ⟨hr, hlen1⟩
    subst hr
    simp [utf8Encode_length] at hlen1
  unfold escAttrRune specTableAttrAmended
  rw [if_neg hq, if_neg ha, if_neg hm, if_neg hl, if_neg hg, if_neg hn,
    if_neg hc, if_neg ht, if_neg hq, if_neg ha, if_neg hm, if_neg hl,
    if_neg hg, if_neg ht, if_neg hn, if_neg hc]
  by_cases hnum : ¬(0x20 ≤ r ∧ r < 0x80) ∧ r < 0xE0
  · rw [if_pos hnum, if_pos (show r < 0x20 ∨ (0x80 ≤ r ∧ r < 0xE0) by omega)]
  · rw [if_neg hnum,
      if_neg (show ¬(r < 0x20 ∨ (0x80 ≤ r ∧ r < 0xE0)) by omega)]
    by_cases hrange : isInCharacterRange r
    · rw [if_neg (show ¬(¬isInCharacterRange r ∨
          (r = 0xFFFD ∧ (utf8Encode r).length = 1)) from
            fun h => h.elim (fun h' => h' hrange) hw),
        if_neg (show ¬¬specAllowed r from fun h => h hrange)]
    · rw [if_pos (Or.inl hrange), if_pos (show ¬specAllowed r from hrange)]
      rfl

/-- The text-escaping switch with newline-escaping off agrees with the
amended spec table on every Unicode scalar value. -/
theorem escTextRune_matches_table (r : Nat) (h1 : r ≤ 0x10FFFF)
    (h2 : ¬(0xD800 ≤ r ∧ r ≤ 0xDFFF)) :
    escTextRune false r (utf8Encode r).length (utf8Encode r) =
      specTableTextAmended r := by
  by_cases ht : r = 0x09
  · subst ht; rfl
  by_cases hn : r = 0x0A
  · subst hn; rfl
  by_cases hq : r = 0x22
  · subst hq; rfl
  by_cases ha : r = 0x27
  · subst ha; rfl
  by_cases hm : r = 0x26
  · subst hm; rfl
  by_cases hl : r = 0x3C
  · subst hl; rfl
  by_cases hg : r = 0x3E
  · subst hg; rfl
  by_cases hc : r = 0x0D
  · subst hc; rfl
  have hw : ¬(r = 0xFFFD ∧ (utf8Encode r).length = 1) := by
    rintro ⟨hr, hlen1⟩
    subst hr
    simp [utf8Encode_length] at hlen1
  unfold escTextRune specTableTextAmended
  rw [if_neg hq, if_neg ha, if_neg hm, if_neg hl, if_neg hg, if_neg hn,
    if_neg hc, if_neg ht, if_neg hn, if_neg hq, if_neg ha, if_neg hm,
    if_neg hl, if_neg hg, if_neg hc]
  by_cases hnum : ¬(r = 0x09 ∨ (0x20 ≤ r ∧ r < 0x80)) ∧ r < 0xE0
  · rw [if_pos hnum, if_pos (show r < 0x20 ∨ (0x80 ≤ r ∧ r < 0xE0) by omega)]
  · rw [if_neg hnum,
      if_neg (show ¬(r < 0x20 ∨ (0x80 ≤ r ∧ r < 0xE0)) by omega)]
    by_cases hrange : isInCharacterRange r
    · rw [if_neg (show ¬(¬isInCharacterRange r ∨
          (r = 0xFFFD ∧ (utf8Encode r).length = 1)) from
            fun h => h.elim (fun h' => h' hrange) hw),
        if_neg (show ¬¬specAllowed r from fun h => h hrange)]
    · rw [if_pos (Or.inl hrange), if_pos (show ¬specAllowed r from hrange)]
      rfl

/-- C1: the event sequence document-start(version "1.0", no encoding, no
standalone declaration), element-start("root"), characters("hi"),
element-end("root"), document-end, processed by the tree builder and
serialized by `DumpDoc`, produces exactly the bytes
`<?xml version="1.0"?>` newline `<root>hi</root>` newline, and nothing
else. -/
theorem c1_end_to_end :
    c1Run = some (strBytes "<?xml version=\"1.0\"?>\n<root>hi</root>\n") := by
  decide

/-- C2 counterexample: at the scalar value U+00DF the claim's attribute
table prescribes pass-through (0xDF lies outside the claimed numeric band
[0x80,0xDF)), but `escapeAttrValue` emits the numeric reference `&#xDF;`
because the source tests `r < 0xE0`. -/
theorem c2_escaping_claim_counterexample :
    escapeAttrValue (utf8Encode 0xDF) ≠ specTableAttr 0xDF ∧
      escapeAttrValue (utf8Encode 0xDF) = strBytes "&#xDF;" ∧
      specTableAttr 0xDF = strBytes "ß" :=
  ⟨by decide, by decide, by decide⟩

/-- C2 (amended): for every Unicode scalar value, `escapeAttrValue` and
`escapeText` (newline-escaping off) produce exactly the output of the
escaping table with the numeric-escape band corrected to [0x80,0xE0): the
eight special characters escape as listed (tab and newline escape in
attribute context and pass through literally in text context), any value
< 0x20 or in [0x80,0xE0) outside those becomes `&#x<HEX>;`, any value
outside the allowed ranges becomes the literal replacement character, and
every other value passes through unchanged. -/
theorem c2_escaping_table (r : Nat) (h1 : r ≤ 0x10FFFF)
    (h2 : ¬(0xD800 ≤ r ∧ r ≤ 0xDFFF)) :
    escapeAttrValue (utf8Encode r) = specTableAttrAmended r ∧
      escapeText (utf8Encode r) false = specTableTextAmended r :=
  ⟨(escapeAttrValue_single r h1 h2).trans (escAttrRune_matches_table r h1 h2),
    (escapeText_single false r h1 h2).trans
      (escTextRune_matches_table r h1 h2)⟩

/-- C2 witness: the tab character, escaped in the attribute context and
literal in the text context. -/
theorem c2_escaping_table_witness :
    escapeAttrValue (utf8Encode 0x09) = specTableAttrAmended 0x09 ∧
      escapeText (utf8Encode 0x09) false = specTableTextAmended 0x09 :=
  c2_escaping_table 0x09 (by decide) (by decide)

/-- C3: on a standalone document, outside any DTD subset, for a
non-predefined general-entity name: a first-table hit is returned as is; on
a miss the lookup retries with the standalone flag cleared; a retry hit
restores the flag and returns the entity; a retry miss fails with the error
naming the entity and the standalone/external-subset condition, exactly as
`TreeBuilder.GetEntity` computes it. -/
theorem c3_standalone_retry (ctx : ParserCtx) (d : Document) (name : String)
    (hdoc : ctx.doc = some d) (hsa : d.standalone = 1)
    (hsub : ctx.inSubset = 0)
    (hpre : resolvePredefinedEntity name = none) :
    (∀ e, d.GetEntity name = (some e, true) →
      TreeBuilder.GetEntity ctx name = some (Except.ok (some e), ctx)) ∧
    (∀ e, d.GetEntity name = (none, false) →
      Document.GetEntity { d with standalone := 0 } name = (some e, true) →
      TreeBuilder.GetEntity ctx name =
        some (Except.ok (some e),
          { ctx with doc := some { d with standalone := 1 } })) ∧
    (d.GetEntity name = (none, false) →
      Document.GetEntity { d with standalone := 0 } name = (none, false) →
      TreeBuilder.GetEntity ctx name =
        some (Except.error ("Entity(" ++ name ++
            ") document marked standalone but requires eternal subset"),
          { ctx with doc := some { d with standalone := 0 } })) := by
  refine ⟨?_, ?_, ?_⟩
  · intro e he
    unfold TreeBuilder.GetEntity
    rw [hsub, hpre, hdoc]
    simp [hsa, he]
  · intro e hm hh
    unfold TreeBuilder.GetEntity
    rw [hsub, hpre, hdoc]
    simp [hsa, hm, hh]
  · intro hm hh
    unfold TreeBuilder.GetEntity
    rw [hsub, hpre, hdoc]
    simp [hsa, hm, hh]

/-- C3 witness: on `docStandalone` the name `foo` misses the internal
subset, the retry with the flag cleared hits the external subset, and the
entity is returned with the standalone flag restored to 1. -/
theorem c3_standalone_retry_witness :
    TreeBuilder.GetEntity ctxStandalone "foo" =
      some (Except.ok (some entFoo),
        { ctxStandalone with
          doc := some { docStandalone with standalone := 1 } }) :=
  (c3_standalone_retry ctxStandalone docStandalone "foo" rfl rfl rfl
    rfl).2.1 entFoo rfl rfl

/-- C4: with an open cursor element, an element-end event pops the cursor to
its parent exactly when the event's (local name, prefix, uri) triple equals
the cursor element's; on any mismatch the builder state (in particular the
cursor) is completely unchanged, and no error is raised (`EndElement`
always returns a nil error). -/
theorem c4_end_element (t : TreeBuilder) (oe : OpenElem)
    (rest : List OpenElem) (ln p u : String)
    (h : t.node = Cursor.elems (oe :: rest)) :
    ((oe.ident.localName = ln ∧ oe.ident.pfx = p ∧ oe.ident.uri = u) →
      (t.EndElement ln p u).node =
        parentCursor (HNode.element oe.ident oe.attrs oe.children) rest) ∧
    (¬(oe.ident.localName = ln ∧ oe.ident.pfx = p ∧ oe.ident.uri = u) →
      t.EndElement ln p u = t) := by
  constructor
  · intro hm
    unfold TreeBuilder.EndElement
    rw [h]
    simp only [if_pos hm]
    cases rest <;> rfl
  · intro hm
    unfold TreeBuilder.EndElement
    rw [h]
    simp only [if_neg hm]

/-- C4 witness: closing tag `b` against the open element `a` leaves the
builder unchanged. -/
theorem c4_end_element_witness :
    tC4.EndElement "b" "" "" = tC4 :=
  (c4_end_element tC4
    { ident := { localName := "a", pfx := "", uri := "" },
      attrs := [], children := [] }
    [] "b" "" "" rfl).2 (by decide)

/-- C5: serializing a comment node with content `c` emits the bytes
`<!--c-->` followed by a newline the source itself flags as wrong ("this
newline is not right, but I'm punting the problem for now"), so the output
is not exactly `<!--` content `-->` as the spec states. -/
theorem c5_comment_trailing_newline :
    DumpNode (HNode.comment (strBytes "c") []) =
        some (strBytes "<!--c-->\n") ∧
      DumpNode (HNode.comment (strBytes "c") []) ≠
        some (strBytes "<!--c-->") :=
  ⟨by decide, by decide⟩

/-- C6 counterexample: a builder whose cursor rests on the document node is
not returned to the initial empty state by document-end — only the document
reference is cleared, the cursor keeps its value. -/
theorem c6_end_document_counterexample :
    tC6.EndDocument.1 ≠ initialTreeBuilder := by
  intro h
  exact Cursor.noConfusion (congrArg TreeBuilder.node h)

/-- C6 (amended): document-end hands the completed document to the context
and clears the builder's document reference, but leaves the cursor
reference unchanged; the builder equals the initial empty state only when
the cursor was already empty. -/
theorem c6_end_document (t : TreeBuilder) :
    t.EndDocument.1.doc = none ∧ t.EndDocument.1.node = t.node ∧
      t.EndDocument.2 = t.doc.map (fun d => currentTree d t.node) :=
  ⟨rfl, rfl, rfl⟩

/-- C7: outside DTD-subset processing, each of the five names lt, gt, amp,
apos, quot resolves to its predefined entity — whose content is the
corresponding character — for every context, in particular one with no
document attached, and the context (hence any document state) is returned
untouched. -/
theorem c7_predefined_entities (ctx : ParserCtx) (h : ctx.inSubset = 0) :
    TreeBuilder.GetEntity ctx "lt" = some (Except.ok (some EntityLT), ctx) ∧
    TreeBuilder.GetEntity ctx "gt" = some (Except.ok (some EntityGT), ctx) ∧
    TreeBuilder.GetEntity ctx "amp" =
      some (Except.ok (some EntityAmpersand), ctx) ∧
    TreeBuilder.GetEntity ctx "apos" =
      some (Except.ok (some EntityApostrophe), ctx) ∧
    TreeBuilder.GetEntity ctx "quot" =
      some (Except.ok (some EntityQuote), ctx) ∧
    EntityLT.content = "<" ∧ EntityGT.content = ">" ∧
    EntityAmpersand.content = "&" ∧ EntityApostrophe.content = "'" ∧
    EntityQuote.content = "\"" := by
  refine ⟨?_, ?_, ?_, ?_, ?_, rfl, rfl, rfl, rfl, rfl⟩ <;>
    (unfold TreeBuilder.GetEntity; rw [h]; rfl)

/-- C7 witness: `lt` resolves with no document attached. -/
theorem c7_predefined_entities_witness :
    TreeBuilder.GetEntity ctxNoDoc "lt" =
      some (Except.ok (some EntityLT), ctxNoDoc) :=
  (c7_predefined_entities ctxNoDoc rfl).1

/-- C8: when the standalone-retry path misses twice, the error is returned
with the document's standalone field still cleared to 0 — different from
its value before the call (the flag is restored only on the retry's success
path). -/
theorem c8_standalone_flag_left_cleared (ctx : ParserCtx) (d : Document)
    (name : String) (hdoc : ctx.doc = some d) (hsa : d.standalone = 1)
    (hsub : ctx.inSubset = 0)
    (hpre : resolvePredefinedEntity name = none)
    (hm : d.GetEntity name = (none, false))
    (hh : Document.GetEntity { d with standalone := 0 } name =
      (none, false)) :
    TreeBuilder.GetEntity ctx name =
      some (Except.error ("Entity(" ++ name ++
          ") document marked standalone but requires eternal subset"),
        { ctx with doc := some { d with standalone := 0 } }) ∧
    ({ d with standalone := 0 } : Document).standalone = 0 ∧
    ({ d with standalone := 0 } : Document).standalone ≠ d.standalone := by
  refine ⟨?_, rfl, ?_⟩
  · unfold TreeBuilder.GetEntity
    rw [hsub, hpre, hdoc]
    simp [hsa, hm, hh]
  · rw [hsa]
    simp

/-- C8 witness: the name `bar` misses both subsets of `docStandalone`; the
call errors and the returned context carries the document with standalone
0, not the original 1. -/
theorem c8_standalone_flag_left_cleared_witness :
    TreeBuilder.GetEntity ctxStandalone "bar" =
      some (Except.error ("Entity(" ++ "bar" ++
          ") document marked standalone but requires eternal subset"),
        { ctxStandalone with
          doc := some { docStandalone with standalone := 0 } }) ∧
    ({ docStandalone with standalone := 0 } : Document).standalone = 0 ∧
    ({ docStandalone with standalone := 0 } : Document).standalone ≠
      docStandalone.standalone :=
  c8_standalone_flag_left_cleared ctxStandalone docStandalone "bar" rfl rfl
    rfl rfl rfl rfl

/-- C9: whenever a document is attached, element-start succeeds regardless
of the attribute list — duplicate names included — because every
`SetAttribute` error is discarded. -/
theorem c9_start_element_ignores_attr_errors (t : TreeBuilder)
    (d : Document) (ln p u : String) (attrs : List (String × String))
    (h : t.doc = some d) :
    ∃ t', t.StartElement ln p u attrs = some (Except.ok t') := by
  unfold TreeBuilder.StartElement
  rw [h]
  cases ht : t.node <;> exact ⟨_, rfl⟩

/-- C9 witness: an attribute list with a duplicate name still yields a
successful element-start. -/
theorem c9_start_element_ignores_attr_errors_witness :
    ∃ t', tC9.StartElement "root" "" "" [("a", "1"), ("a", "2")] =
      some (Except.ok t') :=
  c9_start_element_ignores_attr_errors tC9
    (NewDocument "1.0" "" StandaloneNoXMLDecl) "root" "" ""
    [("a", "1"), ("a", "2")] rfl

/-- C10: serializing a text node whose content is exactly the bytes
"textnoenc" hits the unimplemented no-encoding branch and panics (modelled
`none`); any other content is escaped and written, with the node's children
never visited. -/
theorem c10_textnoenc_panics (c : List Nat) (ch : List HNode) :
    (c = strBytes XMLTextNoEnc → DumpNode (HNode.text c ch) = none) ∧
    (c ≠ strBytes XMLTextNoEnc →
      DumpNode (HNode.text c ch) = some (escapeText c false)) := by
  constructor
  · intro h
    unfold DumpNode dumpNodeF
    rw [if_pos h]
  · intro h
    unfold DumpNode dumpNodeF
    rw [if_neg h]

/-- C10 witness: the sentinel content panics, ordinary content is escaped
and written. -/
theorem c10_textnoenc_panics_witness :
    DumpNode (HNode.text (strBytes "textnoenc") []) = none ∧
      DumpNode (HNode.text (strBytes "hi") []) =
        some (escapeText (strBytes "hi") false) :=
  ⟨(c10_textnoenc_panics (strBytes "textnoenc") []).1 rfl,
    (c10_textnoenc_panics (strBytes "hi") []).2 (by decide)⟩
